import Mathlib

/-!
Shallow embedding of the order-fulfillment core of the repository
(ProductsService and OrdersService) and proofs of the specified
properties. Database rows are modelled as lists of records; each
service method becomes a function from an explicit application state
to a result paired with the successor state (a thrown exception is an
`Except.error` carrying the exception message; writes performed before
the throw remain in the returned state, since the services use no
transaction). TypeORM's conditional `UPDATE ... WHERE` is modelled as
a filter/map over the product table.
-/

namespace Challenge

/-- Order lifecycle states, from `OrderStatus` in `order.entity`. -/
inductive OrderStatus where
  | PENDING
  | CONFIRMED
  | CANCELLED
deriving DecidableEq

/-- A row of the product table: id, name, price, stock. -/
structure Product where
  id : Nat
  name : String
  price : Int
  stock : Int
deriving DecidableEq

/-- A row of the order-item table: id, orderId, productId, quantity and
the price snapshot taken at creation time. -/
structure OrderItem where
  id : Nat
  orderId : Nat
  productId : Nat
  quantity : Int
  price : Int
deriving DecidableEq

/-- A row of the order table (the fields the workflow reads/writes). -/
structure Order where
  id : Nat
  userId : Nat
  status : OrderStatus
  total : Int
deriving DecidableEq

/-- The persistent state the two services act on: user ids, the three
tables, and the auto-increment counters for order and order-item ids. -/
structure AppState where
  users : List Nat
  products : List Product
  orders : List Order
  orderItems : List OrderItem
  nextOrderId : Nat
  nextItemId : Nat
deriving DecidableEq

/-- One line of `CreateOrderDto.items`. -/
structure CreateOrderItemDto where
  productId : Nat
  quantity : Int
deriving DecidableEq

/-- `CreateOrderDto`: the user placing the order and the requested lines. -/
structure CreateOrderDto where
  userId : Nat
  items : List CreateOrderItemDto
deriving DecidableEq

/-- `ProductsService.findOne`: first product row with the given id
(`none` models the thrown `NotFoundException`). -/
def findProduct (ps : List Product) (id : Nat) : Option Product :=
  ps.find? fun p => p.id == id

/-- The `productsRepository.save(product)` write performed by
`updateStock`: persist the given stock value on the row with this id. -/
def saveProductStock (ps : List Product) (id : Nat) (stock : Int) : List Product :=
  ps.map fun p => if p.id == id then { p with stock := stock } else p

/-- `ProductsService.updateStock(id, quantity)`: load the product
(`NotFoundException` if absent) and overwrite its stock with `quantity`. -/
def updateStock (st : AppState) (id : Nat) (quantity : Int) : Except String AppState :=
  match findProduct st.products id with
  | none => .error ("Product #" ++ toString id ++ " not found")
  | some _ => .ok { st with products := saveProductStock st.products id quantity }

/-- The row-level meaning of `ProductsService.decrementStock`'s SQL
`UPDATE ... SET stock = stock - :q WHERE id = :id AND stock >= :q`
applied to one existing row: succeed and subtract exactly when the
guard `stock >= quantity` holds. -/
def decrementStock (stock quantity : Int) : Except String Int :=
  if quantity ≤ stock then .ok (stock - quantity) else .error "Not enough stock available"

/-- `ProductsService.decrementStock` over the whole product table: the
conditional UPDATE touches every row satisfying `id = :id AND stock >= :q`;
if no row was affected the service throws `BadRequestException`
(`Not enough stock available`). The returned table is the table after
the UPDATE ran (unchanged when nothing matched). -/
def decrementStockSt (ps : List Product) (id : Nat) (quantity : Int) :
    Except String Unit × List Product :=
  let ps' := ps.map fun p =>
    if p.id == id && decide (quantity ≤ p.stock) then { p with stock := p.stock - quantity } else p
  let affected := (ps.filter fun p => p.id == id && decide (quantity ≤ p.stock)).length
  if affected == 0 then (.error "Not enough stock available", ps') else (.ok (), ps')

/-- The per-item loop inside `OrdersService.create`: resolve the product,
throw `Not enough stock for <name>` when `product.stock < quantity`,
otherwise save the order item (with the price snapshot), accumulate the
total and run `decrementStock`. A throw returns the state as written so
far (items saved before the failure stay saved). -/
def createLoop (orderId : Nat) : List CreateOrderItemDto → AppState → Int → Except String Int × AppState
  | [], st, total => (.ok total, st)
  | itemDto :: rest, st, total =>
    match findProduct st.products itemDto.productId with
    | none => (.error ("Product #" ++ toString itemDto.productId ++ " not found"), st)
    | some product =>
      if product.stock < itemDto.quantity then
        (.error ("Not enough stock for " ++ product.name), st)
      else
        let newItem : OrderItem :=
          ⟨st.nextItemId, orderId, product.id, itemDto.quantity, product.price⟩
        let st1 := { st with orderItems := st.orderItems ++ [newItem],
                             nextItemId := st.nextItemId + 1 }
        let total1 := total + product.price * itemDto.quantity
        match decrementStockSt st1.products product.id itemDto.quantity with
        | (.error e, ps) => (.error e, { st1 with products := ps })
        | (.ok _, ps) => createLoop orderId rest { st1 with products := ps } total1

/-- `OrdersService.findOne` restricted to the order row. -/
def findOrder (st : AppState) (id : Nat) : Option Order :=
  st.orders.find? fun o => o.id == id

/-- `OrdersService.create`: resolve the user, save the `PENDING` order
shell, run the item loop, persist the accumulated total on the shell and
return the reloaded order. On a throw inside the loop, everything
written before the throw (the shell and earlier items/stock decrements)
remains in the returned state. -/
def create (st : AppState) (dto : CreateOrderDto) : Except String Order × AppState :=
  if dto.userId ∈ st.users then
    let oid := st.nextOrderId
    let st1 : AppState := { st with orders := st.orders ++ [⟨oid, dto.userId, .PENDING, 0⟩],
                                    nextOrderId := oid + 1 }
    match createLoop oid dto.items st1 0 with
    | (.error e, st2) => (.error e, st2)
    | (.ok total, st2) =>
      let st3 := { st2 with orders := st2.orders.map fun o =>
                     if o.id == oid then { o with total := total } else o }
      match findOrder st3 oid with
      | some o => (.ok o, st3)
      | none => (.error ("Order #" ++ toString oid ++ " not found"), st3)
  else (.error ("User #" ++ toString dto.userId ++ " not found"), st)

/-- `OrdersService.updateStatus`: load the order and overwrite its status
with the given one (no guard on the current status). -/
def updateStatus (st : AppState) (id : Nat) (status : OrderStatus) :
    Except String Order × AppState :=
  match findOrder st id with
  | none => (.error ("Order #" ++ toString id ++ " not found"), st)
  | some o =>
    (.ok { o with status := status },
     { st with orders := st.orders.map fun x =>
         if x.id == id then { x with status := status } else x })

/-- The items loaded on an order by `findOne`'s `items` relation. -/
def orderItemsOf (st : AppState) (id : Nat) : List OrderItem :=
  st.orderItems.filter fun it => it.orderId == id

/-- The per-item loop inside `OrdersService.cancel`: for each item,
re-fetch the product and call `updateStock(product.id, product.stock +
item.quantity)`. -/
def cancelLoop : List OrderItem → AppState → Except String Unit × AppState
  | [], st => (.ok (), st)
  | item :: rest, st =>
    match findProduct st.products item.productId with
    | none => (.error ("Product #" ++ toString item.productId ++ " not found"), st)
    | some product =>
      match updateStock st product.id (product.stock + item.quantity) with
      | .error e => (.error e, st)
      | .ok st1 => cancelLoop rest st1

/-- `OrdersService.cancel`: only a `PENDING` order may be cancelled
(`Only pending orders can be cancelled` otherwise); on success every
item's product is restocked by the item's quantity and the order status
becomes `CANCELLED`. -/
def cancel (st : AppState) (id : Nat) : Except String Order × AppState :=
  match findOrder st id with
  | none => (.error ("Order #" ++ toString id ++ " not found"), st)
  | some order =>
    if order.status = .PENDING then
      match cancelLoop (orderItemsOf st id) st with
      | (.error e, st1) => (.error e, st1)
      | (.ok _, st1) =>
        (.ok { order with status := .CANCELLED },
         { st1 with orders := st1.orders.map fun o =>
             if o.id == id then { o with status := .CANCELLED } else o })
    else (.error "Only pending orders can be cancelled", st)

/-- One payment-gateway response: `paymentService.processPayment` either
throws (`Payment service unavailable`) or returns `{ success,
transactionId }`. A gateway is a function from the attempt index to the
response it produces on that call. -/
inductive GatewayResponse where
  | throws (msg : String)
  | result (success : Bool) (txid : String)
deriving DecidableEq

/-- Observable outcome of one `OrdersService.processPayment` run: how
many gateway calls were made, the backoff delays (ms) slept in order,
the returned value or thrown error (`none` models `throw lastError!`
with `lastError` never assigned), and the order's final status. -/
structure PaymentRun where
  attempts : Nat
  delays : List Nat
  outcome : Except (Option String) (Bool × String)
  finalStatus : OrderStatus

/-- The retry loop of `OrdersService.processPayment`, faithful to the
source: a thrown gateway error is caught, recorded in `lastError` and
followed by a `100 * 2 ^ attempt` ms sleep; a returned result with
`success = true` confirms the order and returns; a returned result with
`success = false` falls through to the next iteration with no sleep and
no `lastError` update; after `maxRetries` iterations `lastError` is
thrown. -/
def paymentLoop (g : Nat → GatewayResponse) (status0 : OrderStatus) :
    Nat → Nat → Option String → List Nat → PaymentRun
  | 0, attempt, lastError, delays => ⟨attempt, delays, .error lastError, status0⟩
  | fuel + 1, attempt, lastError, delays =>
    match g attempt with
    | .result true txid => ⟨attempt + 1, delays, .ok (true, txid), .CONFIRMED⟩
    | .result false _ => paymentLoop g status0 fuel (attempt + 1) lastError delays
    | .throws msg =>
      paymentLoop g status0 fuel (attempt + 1) (some msg) (delays ++ [100 * 2 ^ attempt])

/-- `OrdersService.maxRetries`. -/
def maxRetries : Nat := 3

/-- `OrdersService.processPayment` against a gateway `g` and an order
whose current status is `status0`. -/
def processPayment (g : Nat → GatewayResponse) (status0 : OrderStatus) : PaymentRun :=
  paymentLoop g status0 maxRetries 0 none []

/-- Whether a gateway response is a thrown error. -/
def isThrow : GatewayResponse → Bool
  | .throws _ => true
  | .result _ _ => false

/-- The message of the last thrown response among attempts `0 .. n-1`
(`none` when no attempt in that range threw): the value `lastError`
holds after `n` loop iterations. -/
def lastThrown (g : Nat → GatewayResponse) : Nat → Option String
  | 0 => none
  | n + 1 =>
    match g n with
    | .throws m => some m
    | .result _ _ => lastThrown g n

/-- The backoff delays the loop has slept after `n` iterations: one
`100 * 2 ^ i` entry per throwing attempt `i < n`. -/
def attemptDelays (g : Nat → GatewayResponse) (n : Nat) : List Nat :=
  ((List.range n).filter fun i => isThrow (g i)).map fun i => 100 * 2 ^ i

/-- Summed quantity of the items of a list that reference the given
product id (the total restock `cancel`'s loop applies to that product). -/
def quantityFor (items : List OrderItem) (pid : Nat) : Int :=
  ((items.filter fun it => it.productId == pid).map fun it => it.quantity).sum

/-- A product-price update through the generic repository save
(`productsRepository.save` with a changed `price`): overwrite the price
of the row with the given id, touching no other table. -/
def setProductPrice (st : AppState) (id : Nat) (newPrice : Int) : AppState :=
  { st with products := st.products.map fun p =>
      if p.id == id then { p with price := newPrice } else p }

/-- One stock mutation of the Inventory Ledger, as the workflow issues
them: `reserve` is `decrementStock`, `restock q` is the
`updateStock(id, product.stock + q)` call made by `cancel`, and
`setStock q` is a direct `updateStock(id, q)`. -/
inductive StockOp where
  | reserve (q : Int)
  | restock (q : Int)
  | setStock (q : Int)
deriving DecidableEq

/-- Effect of one stock mutation on a single product's stock (a failed
`reserve`, i.e. a `decrementStock` whose WHERE clause matched no row,
leaves the stock unchanged). -/
def applyStockOp (stock : Int) : StockOp → Int
  | .reserve q =>
    match decrementStock stock q with
    | .ok s => s
    | .error _ => stock
  | .restock q => stock + q
  | .setStock q => q

/-- The quantity argument carried by a stock mutation. -/
def opQuantity : StockOp → Int
  | .reserve q => q
  | .restock q => q
  | .setStock q => q

/-- Total quantity of the successful reservations when the given
`decrementStock` calls run in sequence against one product: a call's
quantity counts exactly when its conditional update affected the row. -/
def successfulReserved (stock : Int) : List Int → Int
  | [] => 0
  | q :: qs =>
    match decrementStock stock q with
    | .ok s => q + successfulReserved s qs
    | .error _ => successfulReserved stock qs

/-- User row fields read by `mapToOrderFullDetails`. -/
structure UserEntity where
  id : Nat
  email : String
  name : String
  isActive : Bool
  createdAt : Nat
deriving DecidableEq

/-- Category row fields read by `mapToOrderFullDetails`. -/
structure CategoryEntity where
  id : Nat
  name : String
deriving DecidableEq

/-- A product with its `category` relation loaded (`none` when the
product has no category). -/
structure ProductLoaded where
  id : Nat
  name : String
  price : Int
  category : Option CategoryEntity
deriving DecidableEq

/-- An order item with its `product` relation loaded. -/
structure OrderItemLoaded where
  id : Nat
  productId : Nat
  quantity : Int
  price : Int
  product : ProductLoaded
deriving DecidableEq

/-- An order loaded with the `user`, `items`, `items.product` and
`items.product.category` relations, as `getOrderWithFullDetails`
fetches it. -/
structure OrderLoaded where
  id : Nat
  userId : Nat
  status : OrderStatus
  total : Int
  createdAt : Nat
  user : UserEntity
  items : List OrderItemLoaded
deriving DecidableEq

/-- `OrderSummary` from `orders.interface`: the flattened order summary
embedded in the user summary. -/
structure OrderSummary where
  id : Nat
  status : OrderStatus
  total : Int
  createdAt : Nat
deriving DecidableEq

/-- `UserSummary` from `orders.interface`. -/
structure UserSummary where
  id : Nat
  email : String
  name : String
  isActive : Bool
  createdAt : Nat
  latestOrder : OrderSummary
deriving DecidableEq

/-- `CategorySummary` from `orders.interface`. -/
structure CategorySummary where
  id : Nat
  name : String
deriving DecidableEq

/-- `ProductSummary` from `orders.interface`. -/
structure ProductSummary where
  id : Nat
  name : String
  price : Int
  category : Option CategorySummary
deriving DecidableEq

/-- `OrderItemDetails` from `orders.interface`. -/
structure OrderItemDetails where
  id : Nat
  productId : Nat
  quantity : Int
  price : Int
  product : ProductSummary
deriving DecidableEq

/-- `OrderFullDetailsResponse` from `orders.interface`. -/
structure OrderFullDetailsResponse where
  id : Nat
  status : OrderStatus
  total : Int
  userId : Nat
  createdAt : Nat
  user : UserSummary
  items : List OrderItemDetails
deriving DecidableEq

/-- `OrdersService.mapToOrderFullDetails`: field-by-field projection of
the loaded order; `user.latestOrder` is filled with this same order's
scalar summary and each item's product becomes a `ProductSummary` with
an optional `CategorySummary`. -/
def mapToOrderFullDetails (order : OrderLoaded) : OrderFullDetailsResponse :=
  { id := order.id
    status := order.status
    total := order.total
    userId := order.userId
    createdAt := order.createdAt
    user :=
      { id := order.user.id
        email := order.user.email
        name := order.user.name
        isActive := order.user.isActive
        createdAt := order.user.createdAt
        latestOrder :=
          { id := order.id
            status := order.status
            total := order.total
            createdAt := order.createdAt } }
    items := order.items.map fun item =>
      { id := item.id
        productId := item.productId
        quantity := item.quantity
        price := item.price
        product :=
          { id := item.product.id
            name := item.product.name
            price := item.product.price
            category := item.product.category.map fun c => { id := c.id, name := c.name } } } }

/-- `BatchProductError` from `products.interface`. -/
structure BatchProductError where
  productId : Nat
  error : String
deriving DecidableEq

/-- `BatchProcessingResult` from `products.interface`. -/
structure BatchProcessingResult where
  success : Bool
  processed : Nat
  failed : Nat
  errors : List BatchProductError
deriving DecidableEq

/-- `ProductsService.processProductBatch` over a table whose rows have
the ids in `db` (primary keys, hence pairwise distinct): empty input
short-circuits; otherwise the existing ids are fetched in one query,
each missing input id contributes one error entry, existing rows are
bulk-updated in a single UPDATE (`processed` = rows affected) and
`success` is `errors.length === 0`. The second component records
whether the bulk UPDATE was issued at all. -/
def processProductBatch (db : List Nat) (productIds : List Nat) :
    BatchProcessingResult × Bool :=
  if productIds.isEmpty then
    ({ success := true, processed := 0, failed := 0, errors := [] }, false)
  else
    let existingIds := db.filter fun i => productIds.contains i
    let missingIds := productIds.filter fun i => !existingIds.contains i
    let errors := missingIds.map fun i =>
      { productId := i, error := "Product #" ++ toString i ++ " not found" }
    ({ success := errors.length == 0
       processed := existingIds.length
       failed := errors.length
       errors := errors },
     !existingIds.isEmpty)

/-- A gateway whose every call returns a result with `success: false`. -/
def gAllFalse : Nat → GatewayResponse := fun _ => .result false "TXN"

/-- Fixture: one user, one product `P` (price 10, stock 1), empty order
tables. -/
def stLowStock : AppState :=
  ⟨[1], [⟨1, "P", 10, 1⟩], [], [], 1, 1⟩

/-- Fixture: the order request of the insufficient-stock scenario —
user 1 asks for quantity 2 of product 1. -/
def dtoTwoOfP : CreateOrderDto := ⟨1, [⟨1, 2⟩]⟩

/-- Fixture: like `stLowStock` but with stock 5. -/
def stFiveStock : AppState :=
  ⟨[1], [⟨1, "P", 10, 5⟩], [], [], 1, 1⟩

/-- Fixture: a `PENDING` order (id 1, total 20) with one item of
quantity 2 against product 1 (stock 3). -/
def stPendingOrder : AppState :=
  ⟨[1], [⟨1, "P", 10, 3⟩], [⟨1, 1, .PENDING, 20⟩], [⟨1, 1, 1, 2, 10⟩], 2, 2⟩

/-- Fixture: a single `CONFIRMED` (terminal) order and nothing else. -/
def stConfirmedOrder : AppState :=
  ⟨[1], [], [⟨1, 1, .CONFIRMED, 0⟩], [], 2, 1⟩

/-- C1: every stock-mutating operation (conditional decrement,
restock, direct stock update) with a non-negative quantity keeps a
non-negative stock non-negative, and the total quantity of successful
sequential reservations against one product never exceeds its initial
stock (concurrent callers serialize on the row's atomic conditional
update, so every interleaving is such a sequence). -/
theorem c1_stock_never_negative :
    (∀ (ops : List StockOp) (stock : Int), 0 ≤ stock →
        (∀ op ∈ ops, 0 ≤ opQuantity op) → 0 ≤ List.foldl applyStockOp stock ops)
    ∧ ∀ (qs : List Int) (stock : Int), 0 ≤ stock → successfulReserved stock qs ≤ stock := by
  constructor
  · intro ops
    induction ops with
    | nil => intro stock h _; simpa using h
    | cons op ops ih =>
      intro stock h hops
      rw [List.foldl_cons]
      apply ih
      · cases op with
        | reserve q =>
          by_cases hq : q ≤ stock
          · simp only [applyStockOp, decrementStock, if_pos hq]
            omega
          · simp only [applyStockOp, decrementStock, if_neg hq]
            exact h
        | restock q =>
          have hq := hops (.restock q) (by simp)
          simp [applyStockOp, opQuantity] at hq ⊢
          omega
        | setStock q =>
          have hq := hops (.setStock q) (by simp)
          simpa [applyStockOp, opQuantity] using hq
      · intro x hx
        exact hops x (List.mem_cons_of_mem _ hx)
  · intro qs
    induction qs with
    | nil => intro stock h; simpa [successfulReserved] using h
    | cons q qs ih =>
      intro stock h
      by_cases hq : q ≤ stock
      · simp only [successfulReserved, decrementStock, if_pos hq]
        have := ih (stock - q) (by omega)
        omega
      · simp only [successfulReserved, decrementStock, if_neg hq]
        exact ih stock h

/-- Witness for C1 at concrete inputs. -/
theorem c1_stock_never_negative_witness :
    (0 : Int) ≤ List.foldl applyStockOp 5 [.reserve 2, .restock 1, .setStock 4]
    ∧ successfulReserved 5 [2, 2, 2] ≤ 5 :=
  ⟨c1_stock_never_negative.1 [.reserve 2, .restock 1, .setStock 4] 5 (by decide) (by decide),
   c1_stock_never_negative.2 [2, 2, 2] 5 (by decide)⟩

/-- C2: against a table holding a unique row with the requested id,
`decrementStock` throws `Not enough stock available` exactly when
`stock < quantity`; on failure the conditional UPDATE touched no row,
and on success it subtracted exactly `quantity` from that row. -/
theorem c2_reserve_conditional_update :
    ∀ (ps : List Product) (id : Nat) (q : Int) (p : Product),
      findProduct ps id = some p → (∀ x ∈ ps, x.id = id → x = p) →
      (((decrementStockSt ps id q).1 = .error "Not enough stock available") ↔ p.stock < q)
      ∧ (p.stock < q → (decrementStockSt ps id q).2 = ps)
      ∧ (q ≤ p.stock →
          (decrementStockSt ps id q).2 =
            ps.map fun x => if x.id == id then { x with stock := x.stock - q } else x) := by
  intro ps id q p hfind huniq
  have hpid : p.id = id := by simpa using List.find?_some hfind
  have hpmem : p ∈ ps := List.mem_of_find?_eq_some hfind
  by_cases hq : q ≤ p.stock
  · have hmem : p ∈ ps.filter fun x => x.id == id && decide (q ≤ x.stock) := by
      rw [List.mem_filter]
      exact ⟨hpmem, by simp [hpid, hq]⟩
    have hne : ((ps.filter fun x => x.id == id && decide (q ≤ x.stock)).length == 0) = false := by
      cases hfil : ps.filter fun x => x.id == id && decide (q ≤ x.stock) with
      | nil => rw [hfil] at hmem; simp at hmem
      | cons a l => simp [hfil]
    refine ⟨?_, fun hlt => absurd hlt (not_lt.mpr hq), fun _ => ?_⟩
    · simp only [decrementStockSt, hne, Bool.false_eq_true, if_false]
      constructor
      · intro h; exact absurd h (by simp)
      · intro h; exact absurd h (not_lt.mpr hq)
    · simp only [decrementStockSt, hne, Bool.false_eq_true, if_false]
      apply List.map_congr_left
      intro x hx
      by_cases hxid : x.id == id
      · have hxp : x = p := huniq x hx (by simpa using hxid)
        subst hxp
        simp [hxid, hq]
      · simp [hxid]
  · have hfil : (ps.filter fun x => x.id == id && decide (q ≤ x.stock)) = [] := by
      rw [List.filter_eq_nil_iff]
      intro x hx
      by_cases hxid : x.id == id
      · have hxp : x = p := huniq x hx (by simpa using hxid)
        subst hxp
        simp [hq]
      · simp [hxid]
    have hz : ((ps.filter fun x => x.id == id && decide (q ≤ x.stock)).length == 0) = true := by
      simp [hfil]
    refine ⟨?_, fun _ => ?_, fun hle => absurd hle hq⟩
    · simp only [decrementStockSt, hz, if_true]
      simp [not_le.mp hq]
    · simp only [decrementStockSt, hz, if_true]
      have : ∀ x ∈ ps,
          (if x.id == id && decide (q ≤ x.stock) then { x with stock := x.stock - q } else x) = x := by
        intro x hx
        by_cases hxid : x.id == id
        · have hxp : x = p := huniq x hx (by simpa using hxid)
          subst hxp
          simp [hq]
        · simp [hxid]
      rw [List.map_congr_left this, List.map_id']

/-- Witness for C2: quantity 7 against a unique row with stock 5 fails
and mutates nothing. -/
theorem c2_reserve_conditional_update_witness :
    (decrementStockSt [⟨1, "P", 10, 5⟩] 1 7).2 = [⟨1, "P", 10, 5⟩] :=
  (c2_reserve_conditional_update [⟨1, "P", 10, 5⟩] 1 7 ⟨1, "P", 10, 5⟩ rfl
    (by decide)).2.1 (by decide)

/-- C3 (divergence witness): on the spec's insufficient-stock scenario
(stock 1, requested quantity 2) `create` throws the error naming `P`
and mutates no stock, but the `PENDING` order shell saved before the
item loop remains in the state and is retrievable — the order is
neither discarded nor marked failed. -/
theorem c3_insufficient_stock_leaves_pending_order :
    (create stLowStock dtoTwoOfP).1 = .error "Not enough stock for P"
    ∧ (create stLowStock dtoTwoOfP).2.products = stLowStock.products
    ∧ (create stLowStock dtoTwoOfP).2.orderItems = []
    ∧ (create stLowStock dtoTwoOfP).2.orders = [⟨1, 1, .PENDING, 0⟩]
    ∧ findOrder (create stLowStock dtoTwoOfP).2 1 = some ⟨1, 1, .PENDING, 0⟩ :=
  ⟨rfl, rfl, rfl, rfl, rfl⟩

/-- C6: against a gateway that throws on every call, `processPayment`
makes exactly 3 attempts, sleeps 100, 200 and 400 ms after the failed
attempts, raises the last observed failure, and a `PENDING` order stays
`PENDING`. -/
theorem c6_payment_retry_bound (f : Nat → String) :
    processPayment (fun n => .throws (f n)) .PENDING =
      ⟨3, [100, 200, 400], .error (some (f 2)), .PENDING⟩ := rfl

/-- C7 counterexample: a gateway returning a non-success result on
every call makes all 3 attempts fail, yet no backoff wait occurs at all
(delays = [], not the claimed 100/200/400 ms), and the propagated error
is the never-assigned `lastError` (`none`) rather than the observed
non-success failure. -/
theorem c7_cex_no_backoff_on_false_result :
    (processPayment gAllFalse .PENDING).attempts = 3
    ∧ (processPayment gAllFalse .PENDING).delays = []
    ∧ (processPayment gAllFalse .PENDING).delays ≠ [100, 200, 400]
    ∧ (processPayment gAllFalse .PENDING).outcome = .error none :=
  ⟨rfl, rfl, by decide, rfl⟩

/-- C8 counterexample: `updateStatus` called on a `CONFIRMED` (terminal)
order overwrites its status with the requested one. -/
theorem c8_cex_update_status_mutates_terminal :
    stConfirmedOrder.orders = [⟨1, 1, .CONFIRMED, 0⟩]
    ∧ (updateStatus stConfirmedOrder 1 .CANCELLED).1 = .ok ⟨1, 1, .CANCELLED, 0⟩
    ∧ (updateStatus stConfirmedOrder 1 .CANCELLED).2.orders = [⟨1, 1, .CANCELLED, 0⟩] :=
  ⟨rfl, rfl, rfl⟩

/-- C9: the projection of a fully loaded order is an acyclic tree:
`user.latestOrder` is exactly this same order's scalar summary, the
top-level scalars are the order's own, and each item's product is
projected to id/name/price with an optional id/name category summary. -/
theorem c9_projection_acyclic (o : OrderLoaded) :
    (mapToOrderFullDetails o).user.latestOrder = ⟨o.id, o.status, o.total, o.createdAt⟩
    ∧ (mapToOrderFullDetails o).id = o.id
    ∧ (mapToOrderFullDetails o).status = o.status
    ∧ (mapToOrderFullDetails o).total = o.total
    ∧ (mapToOrderFullDetails o).createdAt = o.createdAt
    ∧ (mapToOrderFullDetails o).user.id = o.user.id
    ∧ (mapToOrderFullDetails o).items = o.items.map fun it =>
        ⟨it.id, it.productId, it.quantity, it.price,
          ⟨it.product.id, it.product.name, it.product.price,
            it.product.category.map fun c => ⟨c.id, c.name⟩⟩⟩ :=
  ⟨rfl, rfl, rfl, rfl, rfl, rfl, rfl⟩

/-- Invariant of the payment retry loop: at every point the slept
delays are exactly one backoff per throwing attempt so far, and the
error thrown on exhaustion is the last thrown gateway error (or `none`
when no attempt threw). -/
theorem paymentLoop_inv (g : Nat → GatewayResponse) (s : OrderStatus) :
    ∀ (fuel attempt : Nat) (lastError : Option String) (delays : List Nat),
      delays = attemptDelays g attempt →
      lastError = lastThrown g attempt →
      (paymentLoop g s fuel attempt lastError delays).delays =
        attemptDelays g (paymentLoop g s fuel attempt lastError delays).attempts
      ∧ ∀ e, (paymentLoop g s fuel attempt lastError delays).outcome = .error e →
          e = lastThrown g (paymentLoop g s fuel attempt lastError delays).attempts := by
  intro fuel
  induction fuel with
  | zero =>
    intro attempt lastError delays hd hl
    subst hd hl
    exact ⟨rfl, fun e he => (Except.error.inj he).symm⟩
  | succ fuel ih =>
    intro attempt lastError delays hd hl
    cases hg : g attempt with
    | throws m =>
      simp only [paymentLoop, hg]
      apply ih
      · rw [hd]
        unfold attemptDelays
        rw [List.range_succ, List.filter_append, List.map_append]
        simp [hg, isThrow]
      · simp [lastThrown, hg]
    | result success txid =>
      cases success with
      | true =>
        simp only [paymentLoop, hg]
        refine ⟨?_, ?_⟩
        · rw [hd]
          unfold attemptDelays
          rw [List.range_succ, List.filter_append]
          simp [hg, isThrow]
        · intro e he
          simp at he
      | false =>
        simp only [paymentLoop, hg]
        apply ih
        · rw [hd]
          unfold attemptDelays
          rw [List.range_succ, List.filter_append]
          simp [hg, isThrow]
        · rw [hl]
          simp [lastThrown, hg]

/-- C7 amended: a backoff wait of `100 * 2 ^ attempt` follows exactly
the failed attempts that threw (a non-success result is retried with no
wait), and the error propagated on exhaustion is the last thrown
gateway error — `none` (an undefined `lastError`) when every failure
was a non-success result. -/
theorem c7_amended_backoff_only_on_throw (g : Nat → GatewayResponse) (status0 : OrderStatus) :
    (processPayment g status0).delays = attemptDelays g (processPayment g status0).attempts
    ∧ ∀ e, (processPayment g status0).outcome = .error e →
        e = lastThrown g (processPayment g status0).attempts :=
  paymentLoop_inv g status0 maxRetries 0 none [] rfl rfl

/-- Witness for the amended C7 at the all-non-success gateway. -/
theorem c7_amended_backoff_only_on_throw_witness :
    (processPayment gAllFalse .PENDING).delays =
      attemptDelays gAllFalse (processPayment gAllFalse .PENDING).attempts
    ∧ none = lastThrown gAllFalse (processPayment gAllFalse .PENDING).attempts :=
  ⟨(c7_amended_backoff_only_on_throw gAllFalse .PENDING).1,
   (c7_amended_backoff_only_on_throw gAllFalse .PENDING).2 none rfl⟩

/-- C8 amended: only `cancel` guards terminal statuses (it rejects any
non-`PENDING` order and leaves the state untouched), while
`updateStatus` overwrites any order's status with the requested one
unconditionally and `processPayment` sets `CONFIRMED` on a successful
gateway result regardless of the order's current status. -/
theorem c8_amended_terminal_guard :
    (∀ (st : AppState) (id : Nat) (o : Order), findOrder st id = some o → o.status ≠ .PENDING →
        cancel st id = (.error "Only pending orders can be cancelled", st))
    ∧ (∀ (st : AppState) (id : Nat) (s : OrderStatus) (o : Order), findOrder st id = some o →
        (updateStatus st id s).1 = .ok { o with status := s })
    ∧ ∀ (g : Nat → GatewayResponse) (s0 : OrderStatus) (tx : String),
        g 0 = .result true tx → (processPayment g s0).finalStatus = .CONFIRMED := by
  refine ⟨?_, ?_, ?_⟩
  · intro st id o hf hnp
    simp only [cancel, hf, if_neg hnp]
  · intro st id s o hf
    simp only [updateStatus, hf]
  · intro g s0 tx hg
    simp only [processPayment, maxRetries, paymentLoop, hg]

/-- Witness for the amended C8: cancelling the fixture `CONFIRMED`
order is rejected and mutates nothing. -/
theorem c8_amended_terminal_guard_witness :
    cancel stConfirmedOrder 1 =
      (.error "Only pending orders can be cancelled", stConfirmedOrder) :=
  c8_amended_terminal_guard.1 stConfirmedOrder 1 ⟨1, 1, .CONFIRMED, 0⟩ rfl (by decide)

/-- C10. -/
theorem c10_batch_result (db ids : List Nat) :
    (((processProductBatch db ids).1.success = true) ↔ ∀ i ∈ ids, i ∈ db)
    ∧ (processProductBatch db ids).1.failed = (processProductBatch db ids).1.errors.length
    ∧ (processProductBatch db ids).1.errors.length =
        (ids.filter fun i => decide (i ∉ db)).length
    ∧ processProductBatch db [] =
        ({ success := true, processed := 0, failed := 0, errors := [] }, false) := by
  have key : ∀ (a : Nat) (as : List Nat),
      ((a :: as).filter fun i => !(db.filter fun j => (a :: as).contains j).contains i) =
        (a :: as).filter fun i => decide (i ∉ db) := by
    intro a as
    apply List.filter_congr
    intro i hi
    have hc : (db.filter fun j => (a :: as).contains j).contains i = db.contains i := by
      simp only [List.elem_eq_mem, decide_eq_decide, List.mem_filter]
      simp [List.elem_eq_mem, hi]
    rw [hc]
    simp [List.elem_eq_mem, decide_not]
  rcases ids with _ | ⟨a, as⟩
  · exact ⟨by simp [processProductBatch], rfl, rfl, rfl⟩
  · refine ⟨?_, rfl, ?_, rfl⟩
    · simp only [processProductBatch, List.isEmpty_cons, Bool.false_eq_true, if_false,
        List.length_map, key, beq_iff_eq, List.length_eq_zero, List.filter_eq_nil_iff]
      constructor
      · intro h i hi
        simpa using h i hi
      · intro h i hi
        simpa using h i hi
    · simp only [processProductBatch, List.isEmpty_cons, Bool.false_eq_true, if_false,
        List.length_map, key]

/-- Inner-loop invariant of `create`. -/
theorem createLoop_items :
    ∀ (items : List CreateOrderItemDto) (oid : Nat) (st : AppState) (acc t : Int)
      (st' : AppState),
      createLoop oid items st acc = (.ok t, st') →
      ∃ new, st'.orderItems = st.orderItems ++ new
        ∧ t = acc + (new.map fun it => it.price * it.quantity).sum
        ∧ ∀ it ∈ new, it.orderId = oid := by
  intro items
  induction items with
  | nil =>
    intro oid st acc t st' h
    simp only [createLoop, Prod.mk.injEq, Except.ok.injEq] at h
    obtain ⟨h1, h2⟩ := h
    subst h1
    subst h2
    exact ⟨[], by simp, by simp, by simp⟩
  | cons d rest ih =>
    intro oid st acc t st' h
    simp only [createLoop] at h
    split at h
    · simp at h
    · rename_i product hfp
      split at h
      · simp at h
      · split at h
        · simp at h
        · rename_i hs u ps hdec
          obtain ⟨new, hitems, htot, hoid⟩ := ih oid _ _ t st' h
          refine ⟨⟨st.nextItemId, oid, product.id, d.quantity, product.price⟩ :: new, ?_, ?_, ?_⟩
          · simpa [List.append_assoc] using hitems
          · rw [htot]
            simp [List.sum_cons]
            ring
          · intro it hit
            rcases List.mem_cons.mp hit with h1 | h1
            · subst h1; rfl
            · exact hoid it h1

/-- C4. -/
theorem c4_total_reconciliation :
    (∀ (st : AppState) (dto : CreateOrderDto) (order : Order) (st' : AppState)
        (new : List OrderItem),
        create st dto = (.ok order, st') →
        st'.orderItems = st.orderItems ++ new →
        order.total = (new.map fun it => it.price * it.quantity).sum
        ∧ ∀ it ∈ new, it.orderId = order.id)
    ∧ ∀ (st : AppState) (pid : Nat) (newPrice : Int),
        (setProductPrice st pid newPrice).orderItems = st.orderItems
        ∧ (setProductPrice st pid newPrice).orders = st.orders := by
  constructor
  · intro st dto order st' new hc hnew
    simp only [create] at hc
    split at hc
    · split at hc
      · simp at hc
      · rename_i total st2 hloop
        split at hc
        · rename_i o hfo
          simp only [Prod.mk.injEq, Except.ok.injEq] at hc
          obtain ⟨ho, hst⟩ := hc
          rw [← ho]
          simp only [findOrder] at hfo
          obtain ⟨new0, h0items, h0tot, h0oid⟩ := createLoop_items _ _ _ _ _ _ hloop
          have hoid : o.id = st.nextOrderId := by
            simpa using List.find?_some hfo
          have hitems' : st'.orderItems = st.orderItems ++ new0 := by
            rw [← hst]
            simpa using h0items
          have hnn : new = new0 := by
            have h2 : st.orderItems ++ new = st.orderItems ++ new0 := by
              rw [← hnew, hitems']
            exact List.append_cancel_left h2
          subst hnn
          have hmem := List.mem_of_find?_eq_some hfo
          simp only [List.mem_map] at hmem
          obtain ⟨b, hb, hfb⟩ := hmem
          have htotal : o.total = total := by
            by_cases hbid : (b.id == st.nextOrderId) = true
            · simp only [if_pos hbid] at hfb
              rw [← hfb]
            · simp only [if_neg hbid] at hfb
              rw [hfb] at hbid
              simp [hoid] at hbid
          constructor
          · rw [htotal, h0tot]
            simp
          · intro it hit
            rw [hoid]
            exact h0oid it hit
        · simp at hc
    · simp at hc
  · intro st pid newPrice
    exact ⟨rfl, rfl⟩

/-- C4 witness. -/
theorem c4_total_reconciliation_witness :
    (⟨1, 1, .PENDING, 20⟩ : Order).total =
      (([⟨1, 1, 1, 2, 10⟩] : List OrderItem).map fun it => it.price * it.quantity).sum
    ∧ ∀ it ∈ ([⟨1, 1, 1, 2, 10⟩] : List OrderItem), it.orderId = (⟨1, 1, .PENDING, 20⟩ : Order).id :=
  c4_total_reconciliation.1 stFiveStock dtoTwoOfP ⟨1, 1, .PENDING, 20⟩
    ⟨[1], [⟨1, "P", 10, 3⟩], [⟨1, 1, .PENDING, 20⟩], [⟨1, 1, 1, 2, 10⟩], 2, 2⟩
    [⟨1, 1, 1, 2, 10⟩] rfl rfl

/-- Restock-loop invariant of `cancel`: when every item's product exists
and product ids are unique (primary keys), the loop succeeds and adds to
each product's stock the summed quantities of the items referencing it. -/
theorem cancelLoop_spec :
    ∀ (items : List OrderItem) (st : AppState),
      (∀ it ∈ items, ∃ p ∈ st.products, p.id = it.productId) →
      (st.products.map Product.id).Nodup →
      cancelLoop items st =
        (.ok (),
         { st with products := st.products.map fun p =>
             { p with stock := p.stock + quantityFor items p.id } }) := by
  intro items
  induction items with
  | nil =>
    intro st _ _
    simp [cancelLoop, quantityFor]
  | cons item rest ih =>
    intro st hex hnd
    obtain ⟨p0, hp0mem, hp0id⟩ := hex item (by simp)
    have hfind : ∃ q, findProduct st.products item.productId = some q := by
      cases hfp : findProduct st.products item.productId with
      | none =>
        exfalso
        simp only [findProduct, List.find?_eq_none] at hfp
        exact absurd (by simpa using hp0id) (by simpa using hfp p0 hp0mem)
      | some q => exact ⟨q, rfl⟩
    obtain ⟨prod, hfp⟩ := hfind
    have hfpRaw : st.products.find? (fun x => x.id == item.productId) = some prod := hfp
    have hprodid : prod.id = item.productId := by
      simpa using List.find?_some hfpRaw
    have hprodmem : prod ∈ st.products := List.mem_of_find?_eq_some hfpRaw
    have hfp2 : findProduct st.products prod.id = some prod := by
      rw [hprodid]
      exact hfp
    simp only [cancelLoop, hfp, updateStock, hfp2]
    have hidpres : ∀ x : Product,
        (if (x.id == prod.id) = true then
            { x with stock := prod.stock + item.quantity } else x).id = x.id := by
      intro x
      by_cases hx : (x.id == prod.id) = true
      · simp [hx]
      · simp [hx]
    have hnd1 : ((saveProductStock st.products prod.id (prod.stock + item.quantity)).map
        Product.id).Nodup := by
      unfold saveProductStock
      rw [List.map_map]
      have h2 : st.products.map (Product.id ∘ fun x =>
          if x.id == prod.id then { x with stock := prod.stock + item.quantity } else x)
          = st.products.map Product.id := by
        apply List.map_congr_left
        intro a _
        exact hidpres a
      rw [h2]
      exact hnd
    have hex1 : ∀ it ∈ rest,
        ∃ p ∈ saveProductStock st.products prod.id (prod.stock + item.quantity),
          p.id = it.productId := by
      intro it hit
      obtain ⟨p, hpmem, hpid⟩ := hex it (List.mem_cons_of_mem _ hit)
      have hm : (if (p.id == prod.id) = true then
          { p with stock := prod.stock + item.quantity } else p) ∈
          saveProductStock st.products prod.id (prod.stock + item.quantity) := by
        unfold saveProductStock
        exact List.mem_map_of_mem _ hpmem
      exact ⟨_, hm, by rw [hidpres p]; exact hpid⟩
    rw [ih _ hex1 hnd1]
    have hinj := List.inj_on_of_nodup_map hnd
    have hprods : st.products.map
        ((fun p : Product => { p with stock := p.stock + quantityFor rest p.id }) ∘
          fun p : Product =>
            if p.id == prod.id then { p with stock := prod.stock + item.quantity } else p)
        = st.products.map fun p : Product =>
            { p with stock := p.stock + quantityFor (item :: rest) p.id } := by
      apply List.map_congr_left
      intro a ha
      by_cases hax : (a.id == prod.id) = true
      · have hap : a = prod := hinj ha hprodmem (by simpa using hax)
        subst hap
        have hq : (item.productId == a.id) = true := by
          simp [← hprodid]
        simp only [Function.comp_apply, if_pos hax, quantityFor, List.filter_cons, hq,
          if_true, List.map_cons, List.sum_cons, Product.mk.injEq, true_and]
        omega
      · have hq : (item.productId == a.id) = false := by
          rw [hprodid] at hax
          simp only [beq_iff_eq] at hax
          simp only [beq_eq_false_iff_ne]
          exact fun h => hax h.symm
        simp only [Function.comp_apply, if_neg hax, quantityFor, List.filter_cons, hq,
          Bool.false_eq_true, if_false]
    simp only [saveProductStock, List.map_map]
    rw [hprods]

/-- C5. -/
theorem c5_cancel_compensation :
    ∀ (st : AppState) (id : Nat) (o : Order), findOrder st id = some o →
      (o.status = .PENDING →
          (st.products.map Product.id).Nodup →
          (∀ it ∈ orderItemsOf st id, ∃ p ∈ st.products, p.id = it.productId) →
          cancel st id =
            (.ok { o with status := .CANCELLED },
             { st with
                 products := st.products.map fun p =>
                   { p with stock := p.stock + quantityFor (orderItemsOf st id) p.id },
                 orders := st.orders.map fun x =>
                   if x.id == id then { x with status := .CANCELLED } else x }))
      ∧ (o.status ≠ .PENDING →
          cancel st id = (.error "Only pending orders can be cancelled", st)) := by
  intro st id o hfind
  constructor
  · intro hpend hnd hex
    simp only [cancel, hfind, if_pos hpend]
    rw [cancelLoop_spec _ _ hex hnd]
  · intro hnp
    simp only [cancel, hfind, if_neg hnp]

/-- C5 witness: cancelling the fixture `PENDING` order restores stock
3 to 5 and flips the status. -/
theorem c5_cancel_compensation_witness :
    cancel stPendingOrder 1 =
      (.ok ⟨1, 1, .CANCELLED, 20⟩,
       { stPendingOrder with
           products := stPendingOrder.products.map fun p =>
             { p with stock := p.stock + quantityFor (orderItemsOf stPendingOrder 1) p.id },
           orders := stPendingOrder.orders.map fun x =>
             if x.id == 1 then { x with status := .CANCELLED } else x }) :=
  (c5_cancel_compensation stPendingOrder 1 ⟨1, 1, .PENDING, 20⟩ rfl).1 rfl (by decide)
    (by decide)

/-- C10 witness: both requested ids exist, so the batch succeeds. -/
theorem c10_batch_result_witness :
    (processProductBatch [1, 2] [1]).1.success = true :=
  (c10_batch_result [1, 2] [1]).1.mpr (by decide)
